import Mathlib

/-!
Shallow embedding of the dtz-toolkit front end (viewer.js, firebase-init.js,
analytics module) and proofs about its behaviour.

Conventions: JS `Date.now()` timestamps are passed explicitly as `Nat`
millisecond values; remote-store writes are collected into explicit lists;
fallible resolution returns `Except`.
-/

namespace DTZ

/-! ### Tool definitions (Firestore `tools` collection)

Record read by the renderer: `{ name, description, enabled, type,
hostedHtml, hostedCss, hostedJs, showHeader }` (viewer.js `loadTool`). -/

structure ToolData where
  name : String
  description : String
  enabled : Bool
  type : String
  hostedHtml : String
  hostedCss : String
  hostedJs : String
  showHeader : Bool
deriving Repr, DecidableEq

/-! ### `ToolViewer.escapeHtml` (viewer.js lines 340-345)

The JS uses a detached `div`: `div.textContent = text; return div.innerHTML`,
which serialises text by replacing `&` with `&amp;`, `<` with `&lt;` and
`>` with `&gt;`. An empty input returns the empty string (`if (!text) return ''`). -/

def escapeChar (c : Char) : List Char :=
  if c = '&' then ['&', 'a', 'm', 'p', ';']
  else if c = '<' then ['&', 'l', 't', ';']
  else if c = '>' then ['&', 'g', 't', ';']
  else [c]

def escapeHtml (s : String) : String :=
  ⟨s.data.flatMap escapeChar⟩

/-- Standard left-to-right HTML entity decoding for the three entities the
serialiser produces; models how the browser renders the escaped text back
into a literal text node. -/
def unescapeList : List Char → List Char
  | '&' :: 'a' :: 'm' :: 'p' :: ';' :: rest => '&' :: unescapeList rest
  | '&' :: 'l' :: 't' :: ';' :: rest => '<' :: unescapeList rest
  | '&' :: 'g' :: 't' :: ';' :: rest => '>' :: unescapeList rest
  | c :: rest => c :: unescapeList rest
  | [] => []

def unescapeHtml (s : String) : String :=
  ⟨unescapeList s.data⟩

/-! ### The composed iframe document (viewer.js `loadToolIntoIframe`, lines 104-244)

The template literal `toolHtml` is a fixed host-authored shell with
interpolations.  We model it as the ordered list of its segments; the
rendered document is the concatenation of the rendered segments.  Order of
the segments mirrors the template exactly:
title (escaped name) / base styles / hostedCss / header (escaped name,
escaped description, emitted only when `showHeader !== false`) / hostedHtml /
watermark / `<script>hostedJs</script>` (only when hostedJs is non-empty) /
the host's isolation script / closing tags. -/

inductive Seg where
  /-- fixed host-authored shell text -/
  | lit (s : String)
  /-- interpolation of `escapeHtml(toolData.name)` -/
  | escName
  /-- interpolation of `escapeHtml(toolData.description)` -/
  | escDescription
  /-- interpolation of `toolData.hostedCss || ''` (unescaped) -/
  | cssPayload
  /-- interpolation of `toolData.hostedHtml` (unescaped) -/
  | htmlPayload
  /-- the tool-authored script element `<script>hostedJs</script>` (unescaped) -/
  | jsPayload
  /-- the host's trailing script that installs the sandbox neutralization -/
  | isolationScript
deriving Repr, DecidableEq

def toolHtmlSegments (td : ToolData) : List Seg :=
  [Seg.lit "<!DOCTYPE html><html lang=\"en\"><head><meta charset=\"UTF-8\"><title>",
   Seg.escName,
   Seg.lit "</title><style> /* host base styles and dark-mode rules */ </style>",
   Seg.cssPayload,
   Seg.lit "</head><body><div class=\"tool-container\">"]
  ++ (if td.showHeader then
        [Seg.lit "<div class=\"tool-header\"><h1 class=\"tool-title\">",
         Seg.escName,
         Seg.lit "</h1>"]
        ++ (if td.description ≠ "" then
              [Seg.lit "<p class=\"tool-description\">", Seg.escDescription, Seg.lit "</p>"]
            else [])
        ++ [Seg.lit "</div>"]
      else [])
  ++ [Seg.htmlPayload,
      Seg.lit "</div><div class=\"tool-watermark\">Powered by Dark Tech Zone</div>"]
  ++ (if td.hostedJs ≠ "" then [Seg.lit "<script>", Seg.jsPayload, Seg.lit "</script>"] else [])
  ++ [Seg.isolationScript,
      Seg.lit "</body></html>"]

def renderSeg (td : ToolData) : Seg → String
  | .lit s => s
  | .escName => escapeHtml td.name
  | .escDescription => escapeHtml td.description
  | .cssPayload => td.hostedCss
  | .htmlPayload => td.hostedHtml
  | .jsPayload => td.hostedJs
  | .isolationScript => "<script> /* sandbox neutralization, see WindowState model */ </script>"

def toolHtml (td : ToolData) : String :=
  String.join ((toolHtmlSegments td).map (renderSeg td))

def isScriptSeg : Seg → Bool
  | Seg.jsPayload => true
  | Seg.isolationScript => true
  | _ => false

/-- The executable script elements of the composed document, in document
order; `document.write` executes them in exactly this order. -/
def scriptSegs (td : ToolData) : List Seg :=
  (toolHtmlSegments td).filter isScriptSeg

/-! ### Tool resolution (viewer.js `loadTool`, lines 55-102)

Checks in source order: document missing, `!enabled`, `type !== 'hosted'`,
`!hostedHtml`; each throws a distinct message. -/

inductive LoadError where
  | notFound
  | disabled
  | typeMismatch
  | payloadMissing
deriving Repr, DecidableEq

def errorMessage : LoadError → String
  | .notFound => "Tool not found"
  | .disabled => "This tool is currently disabled"
  | .typeMismatch => "This tool cannot be viewed in the viewer"
  | .payloadMissing => "No HTML content available for this tool"

def resolveTool : Option ToolData → Except LoadError ToolData
  | none => .error .notFound
  | some td =>
    if td.enabled = false then .error .disabled
    else if td.type ≠ "hosted" then .error .typeMismatch
    else if td.hostedHtml = "" then .error .payloadMissing
    else .ok td

/-! ### Viewer initialisation (viewer.js `init`/`setupViewer`, lines 19-53)

`init` runs `setupViewer()` — which creates and attaches the sandboxed
iframe — and only then `loadTool()`, which resolves the definition and on
success composes the document into the iframe, on failure shows the error
panel. -/

structure ViewerState where
  /-- the embedded browsing context (the iframe element) has been created -/
  iframeCreated : Bool
  /-- the composed tool document written into the iframe, if any -/
  composedDoc : Option (List Seg)
  errorShown : Option String
deriving Repr, DecidableEq

def viewerInit (fetched : Option ToolData) : ViewerState :=
  let afterSetup : ViewerState :=
    { iframeCreated := true, composedDoc := none, errorShown := none }
  match resolveTool fetched with
  | .error e => { afterSetup with errorShown := some (errorMessage e) }
  | .ok td => { afterSetup with composedDoc := some (toolHtmlSegments td) }

/-! ### Duration bucketing (`AnalyticsTracker.getDurationBucket`, part_000 lines 252-264)

Takes a duration in milliseconds; `Math.floor(duration / 1000)` on a
non-negative value is `Nat` division. -/

def getDurationBucket (durationMs : Nat) : String :=
  let seconds := durationMs / 1000
  if seconds < 10 then "0-10s"
  else if seconds < 30 then "10-30s"
  else if seconds < 60 then "30-60s"
  else if seconds < 300 then "1-5m"
  else if seconds < 600 then "5-10m"
  else if seconds < 1800 then "10-30m"
  else if seconds < 3600 then "30-60m"
  else "60m+"

/-! ### Semantics of the injected isolation script (viewer.js lines 201-231)

Inside the iframe the trailing host-authored script runs, guarded by
`window.parent !== window`: it shadows `parent`, `top` and `opener` with
getters returning `null`, replaces `open`/`alert`/`confirm`/`prompt`, and
installs a `beforeunload` guard.  We model the iframe window's observable
state and what each script element of the composed document does to it. -/

/-- The host page's real frame objects, as observable from the iframe. -/
inductive HostObj where
  | parentFrame
  | topFrame
  | openerWindow
deriving Repr, DecidableEq

structure WindowState where
  /-- the iframe is embedded, i.e. `window.parent !== window` -/
  hasParent : Bool
  parentBlocked : Bool
  topBlocked : Bool
  openerBlocked : Bool
  openBlocked : Bool
  alertBlocked : Bool
  confirmBlocked : Bool
  promptBlocked : Bool
  unloadGuard : Bool
  /-- console messages produced by the blocked stubs -/
  log : List String
  /-- number of real (host-level) modal dialogs shown -/
  hostDialogsShown : Nat
deriving Repr, DecidableEq

/-- Window state of the freshly created iframe, before any script in the
composed document has run: nothing is blocked. -/
def freshWindow : WindowState :=
  { hasParent := true, parentBlocked := false, topBlocked := false,
    openerBlocked := false, openBlocked := false, alertBlocked := false,
    confirmBlocked := false, promptBlocked := false, unloadGuard := false,
    log := [], hostDialogsShown := 0 }

/-- Reading `window.parent`: the real host frame unless the shadowing getter
(returning `null`, modelled as `none`) is installed. -/
def readParent (w : WindowState) : Option HostObj :=
  if w.parentBlocked then none else some HostObj.parentFrame

def readTop (w : WindowState) : Option HostObj :=
  if w.topBlocked then none else some HostObj.topFrame

def readOpener (w : WindowState) : Option HostObj :=
  if w.openerBlocked then none else some HostObj.openerWindow

/-- Calling `window.alert`: the stub only logs locally; the original shows a
host dialog. -/
def callAlert (w : WindowState) : WindowState :=
  if w.alertBlocked then { w with log := w.log ++ ["[Tool] Alert blocked by sandbox"] }
  else { w with hostDialogsShown := w.hostDialogsShown + 1 }

/-- Calling `window.confirm`: the stub logs and returns `false`; the original
shows a host dialog and returns the user's answer. -/
def callConfirm (w : WindowState) (hostAnswer : Bool) : WindowState × Bool :=
  if w.confirmBlocked then
    ({ w with log := w.log ++ ["[Tool] Confirm blocked by sandbox"] }, false)
  else ({ w with hostDialogsShown := w.hostDialogsShown + 1 }, hostAnswer)

/-- Calling `window.prompt`: the stub logs and returns `null`; the original
shows a host dialog and returns the user's input. -/
def callPrompt (w : WindowState) (hostInput : Option String) :
    WindowState × Option String :=
  if w.promptBlocked then
    ({ w with log := w.log ++ ["[Tool] Prompt blocked by sandbox"] }, none)
  else ({ w with hostDialogsShown := w.hostDialogsShown + 1 }, hostInput)

/-- Calling `window.open`: the stub returns `null` and opens nothing. -/
def callOpen (w : WindowState) : WindowState × Option Unit :=
  if w.openBlocked then (w, none) else (w, some ())

/-- Effect of the host's isolation script on the iframe window, guarded by
`window.parent !== window` exactly as in the source. -/
def runIsolationScript (w : WindowState) : WindowState :=
  if w.hasParent then
    { w with parentBlocked := true, topBlocked := true, openerBlocked := true,
             openBlocked := true, alertBlocked := true, confirmBlocked := true,
             promptBlocked := true, unloadGuard := true }
  else w

/-- Effect of one script element of the composed document on the window.
The tool-authored script (`jsPayload`) is arbitrary tool code: it cannot
install the host's neutralization, and for the properties proved here we
only need the state in force when it starts to run, so it is modelled as
leaving the neutralization state unchanged. -/
def runSeg : Seg → WindowState → WindowState
  | Seg.isolationScript, w => runIsolationScript w
  | _, w => w

/-- Run the composed document's script elements in document order
(`document.write` executes them in order of appearance). -/
def runScripts (segs : List Seg) (w : WindowState) : WindowState :=
  segs.foldl (fun st s => runSeg s st) w

/-- Window state in force when the script at index `i` of the document-order
script list starts executing. -/
def stateBeforeScript (td : ToolData) (i : Nat) : WindowState :=
  runScripts ((scriptSegs td).take i) freshWindow

/-! ### Browser fingerprint (firebase-init.js `FirebaseUtils.getBrowserFingerprint`,
lines 481-503)

The collected attributes are serialised with `JSON.stringify`, hashed with
the classic 32-bit string hash (`hash = ((hash << 5) - hash) + char;
hash = hash & hash`), and rendered as `Math.abs(hash).toString(36)`.
JS `<<` and `&` coerce to 32-bit two's-complement integers. -/

structure FingerprintAttrs where
  userAgent : String
  language : String
  platform : String
  screen : String
  colorDepth : Nat
  timezone : String
  cookiesEnabled : Bool
  doNotTrack : String
deriving Repr, DecidableEq

/-- `JSON.stringify` of the fingerprint object, with the keys in insertion
order as in the source. -/
def fingerprintString (a : FingerprintAttrs) : String :=
  "\x7b\"userAgent\":\"" ++ a.userAgent ++ "\",\"language\":\"" ++ a.language ++
  "\",\"platform\":\"" ++ a.platform ++ "\",\"screen\":\"" ++ a.screen ++
  "\",\"colorDepth\":" ++ toString a.colorDepth ++ ",\"timezone\":\"" ++
  a.timezone ++ "\",\"cookiesEnabled\":" ++ (if a.cookiesEnabled then "true" else "false") ++
  ",\"doNotTrack\":\"" ++ a.doNotTrack ++ "\"\x7d"

/-- JS `ToInt32`: wrap an integer into `[-2^31, 2^31)`. -/
def toInt32 (n : Int) : Int :=
  (n + 2 ^ 31) % 2 ^ 32 - 2 ^ 31

/-- One iteration of the hash loop: `hash = ((hash << 5) - hash) + char;
hash = hash & hash`.  `hash << 5` is `ToInt32(hash * 32)`; the trailing
`hash & hash` coerces the sum back to 32 bits. -/
def hashStep (h : Int) (c : Nat) : Int :=
  toInt32 (toInt32 (h * 32) - h + c)

def fingerprintHash (s : String) : Int :=
  s.data.foldl (fun h c => hashStep h c.toNat) 0

/-- Lower-case base-36 digit for `n < 36`, matching `Number.toString(36)`. -/
def base36Digit (n : Nat) : Char :=
  if n < 10 then Char.ofNat (48 + n) else Char.ofNat (87 + n)

def natToBase36Aux : Nat → List Char → List Char
  | 0, acc => acc
  | n + 1, acc => natToBase36Aux ((n + 1) / 36) (base36Digit ((n + 1) % 36) :: acc)
decreasing_by exact Nat.div_lt_self (Nat.succ_pos n) (by norm_num)

/-- `n.toString(36)` for a non-negative JS number `n`. -/
def natToBase36 (n : Nat) : String :=
  if n = 0 then "0" else ⟨natToBase36Aux n []⟩

/-- `Math.abs(hash).toString(36)` applied to the fingerprint hash of the
serialised attributes. -/
def getBrowserFingerprint (a : FingerprintAttrs) : String :=
  natToBase36 (fingerprintHash (fingerprintString a)).natAbs

/-! ### Aggregate counters under concurrent writers

`trackToolInteraction` (part_000 line 131) bumps `tool_stats/toolId/action`
with `transaction(current => (current || 0) + 1)`; `trackToolView`
(viewer.js lines 275-295) bumps `tool_views/toolId/total` and
`daily_views/date/toolId` with `ServerValue.increment(1)`.  The store
serialises both primitives: every concurrent execution is equivalent to
applying the operations in some sequential order, each atomically.  A
missing value reads as `null` (`none`), which both primitives treat as 0. -/

/-- A counter key, e.g. the pair (toolId, action) addressing
`tool_stats/toolId/action`. -/
structure CounterKey where
  toolId : String
  action : String
deriving Repr, DecidableEq

/-- The counter region of the store: absent counters are `none`. -/
def CounterStore := CounterKey → Option Nat

inductive IncStrategy where
  /-- `ref.transaction(current => (current || 0) + 1)` -/
  | transaction
  /-- `ServerValue.increment(1)` -/
  | serverIncrement
deriving Repr, DecidableEq

structure IncOp where
  strat : IncStrategy
  key : CounterKey
deriving Repr, DecidableEq

/-- Atomic effect of one increment on the store: both primitives read the
current value (absent ↦ 0) and write back its successor, atomically. -/
def applyInc (s : CounterStore) (op : IncOp) : CounterStore :=
  fun k => if k = op.key then some ((s op.key).getD 0 + 1) else s k

/-- A serialisation of a concurrent execution: the operations applied in the
order the store committed them. -/
def applyIncs (ops : List IncOp) (s : CounterStore) : CounterStore :=
  ops.foldl applyInc s

def countKey (k : CounterKey) (ops : List IncOp) : Nat :=
  (ops.filter (fun op => op.key = k)).length

/-! ### The analytics tracker (part_000)

`AnalyticsTracker` keeps `sessionId`, `userId`, `sessionStart`, `pageViews`,
`lastActivity` in memory — and nothing else: in particular no local status
field and no record of whether the session was already ended.  We also track
whether the 30-second heartbeat `setInterval` is scheduled
(`heartbeatScheduled`); the source sets it up in `init` and no code path
ever calls `clearInterval` on it.  Remote writes are collected explicitly. -/

inductive RemoteWrite where
  /-- `sessions/sid` set with status "active" and page_views 1 (startSession) -/
  | sessionSet (sid uid : String) (startTime lastActivity pageViews : Nat)
      (status : String)
  /-- `daily_users/date/uid` set true (startSession) -/
  | dailyUserSet (uid : String)
  /-- `stats/active_sessions/sid` set true (startSession) -/
  | activeSessionSet (sid : String)
  /-- `page_views/sid/seq` create (trackPageView) -/
  | pageViewCreate (sid : String) (seq : Nat) (path : String) (time : Nat)
  /-- `sessions/sid` update of last_activity / page_views / current_page (trackPageView) -/
  | sessionUpdatePageView (sid : String) (lastActivity pageViews : Nat) (path : String)
  /-- `daily_pages/date/pageKey` transactional increment (trackPageView) -/
  | dailyPageTxnInc (pageKey : String)
  /-- `tool_interactions` push (trackToolInteraction) -/
  | interactionPush (toolId action sid uid : String) (time : Nat)
  /-- `tool_stats/toolId/action` transactional increment (trackToolInteraction) -/
  | toolStatsTxnInc (toolId action : String)
  /-- `sessions/sid/last_activity` set (trackToolInteraction / updateLastActivity) -/
  | lastActivitySet (sid : String) (time : Nat)
  /-- `sessions/sid` update with status "ended", duration, page_views (endSession) -/
  | sessionUpdateEnd (sid : String) (endTime duration pageViews : Nat) (status : String)
  /-- `stats/active_sessions/sid` remove (endSession) -/
  | activeSessionRemove (sid : String)
  /-- `stats/session_durations/bucket` transactional increment (endSession) -/
  | durationBucketTxnInc (bucket : String)
  /-- `sessions/sid/heartbeat` set (heartbeat interval callback) -/
  | heartbeatSet (sid : String) (time : Nat)
deriving Repr, DecidableEq

structure Tracker where
  sessionId : String
  userId : String
  sessionStart : Nat
  pageViews : Nat
  lastActivity : Nat
  /-- the heartbeat `setInterval` is scheduled -/
  heartbeatScheduled : Bool
deriving Repr, DecidableEq

/-- `trackPageView` (part_000 lines 82-113): increments the local counter,
creates the sequence-numbered page-view record, updates the session record
and transactionally bumps the per-date-per-path counter.  No guard. -/
def trackPageView (t : Nat) (path : String) (st : Tracker) :
    Tracker × List RemoteWrite :=
  let pv := st.pageViews + 1
  ({ st with pageViews := pv, lastActivity := t },
   [.pageViewCreate st.sessionId pv path t,
    .sessionUpdatePageView st.sessionId t pv path,
    .dailyPageTxnInc path])

/-- `trackToolInteraction` (part_000 lines 115-140).  No guard. -/
def trackToolInteraction (t : Nat) (toolId action : String) (st : Tracker) :
    Tracker × List RemoteWrite :=
  ({ st with lastActivity := t },
   [.interactionPush toolId action st.sessionId st.userId t,
    .toolStatsTxnInc toolId action,
    .lastActivitySet st.sessionId t])

/-- `endSession` (part_000 lines 142-166): writes status "ended" with the
duration and final page-view count, removes the active-session marker and
bumps the duration-bucket counter.  It has no guard, changes none of the
in-memory fields, and does not clear the heartbeat interval. -/
def endSession (t : Nat) (st : Tracker) : Tracker × List RemoteWrite :=
  let dur := t - st.sessionStart
  (st,
   [.sessionUpdateEnd st.sessionId t dur st.pageViews "ended",
    .activeSessionRemove st.sessionId,
    .durationBucketTxnInc (getDurationBucket dur)])

/-- The heartbeat interval callback (part_000 lines 204-213): fires every
30 000 ms while the interval is scheduled and writes the current time. -/
def heartbeatTick (t : Nat) (st : Tracker) : Tracker × List RemoteWrite :=
  if st.heartbeatScheduled then (st, [.heartbeatSet st.sessionId t]) else (st, [])

/-- `init` (part_000 lines 20-43): builds the in-memory state, runs
`startSession` (three writes, status "active", page_views 1) and then
`trackPageView`, and schedules the heartbeat interval. -/
def initTracker (t0 : Nat) (sid uid path : String) : Tracker × List RemoteWrite :=
  let st : Tracker :=
    { sessionId := sid, userId := uid, sessionStart := t0, pageViews := 0,
      lastActivity := t0, heartbeatScheduled := true }
  let startWrites : List RemoteWrite :=
    [.sessionSet sid uid t0 t0 1 "active", .dailyUserSet uid, .activeSessionSet sid]
  let (st', pvWrites) := trackPageView t0 path st
  (st', startWrites ++ pvWrites)

/-- Events a live page can deliver to the tracker after initialisation. -/
inductive TrackerOp where
  | pageView (t : Nat) (path : String)
  | toolInteraction (t : Nat) (toolId action : String)
  | endOp (t : Nat)
  | hbTick (t : Nat)
deriving Repr, DecidableEq

def trackerStep (st : Tracker) : TrackerOp → Tracker × List RemoteWrite
  | .pageView t path => trackPageView t path st
  | .toolInteraction t toolId action => trackToolInteraction t toolId action st
  | .endOp t => endSession t st
  | .hbTick t => heartbeatTick t st

def trackerRun (st : Tracker) : List TrackerOp → Tracker × List RemoteWrite
  | [] => (st, [])
  | op :: ops =>
    let (st', ws) := trackerStep st op
    let (st'', ws') := trackerRun st' ops
    (st'', ws ++ ws')

/-- Number of `pageView` operations in a list. -/
def countPV (ops : List TrackerOp) : Nat :=
  (ops.filter (fun op => match op with | .pageView _ _ => true | _ => false)).length

/-- The status field carried by a remote write, when it has one: only
`startSession` ("active") and `endSession` ("ended") ever write a status. -/
def writeStatus : RemoteWrite → Option String
  | .sessionSet _ _ _ _ _ s => some s
  | .sessionUpdateEnd _ _ _ _ s => some s
  | _ => none

/-! ### Activity debouncing (part_000 `setupActivityListeners` lines 168-194,
`updateLastActivity` lines 196-202)

Each user-input event (mousedown/keydown/scroll/touchstart) sets
`this.lastActivity = Date.now()`, clears the pending timeout and schedules
`updateLastActivity` 1000 ms later.  A visibility change to visible sets
`lastActivity` and calls `updateLastActivity` immediately, without touching
the pending timeout.  `updateLastActivity` writes the value of
`this.lastActivity` at the moment it runs.  We model the event-loop run over
a chronologically ordered list of events: before an event at time `t` is
handled, a pending timeout whose fire time is `≤ t` fires first. -/

inductive ActEvent where
  /-- a user-input activity event (mousedown/keydown/scroll/touchstart) -/
  | signal (t : Nat)
  /-- visibilitychange with `document.hidden = false` -/
  | visible (t : Nat)
  /-- visibilitychange with `document.hidden = true` (only `trackEvent`, no
  last-activity write) -/
  | hidden (t : Nat)
deriving Repr, DecidableEq

def evTime : ActEvent → Nat
  | .signal t => t
  | .visible t => t
  | .hidden t => t

/-- Events that update `this.lastActivity` (user input and
visibility-to-visible). -/
def isActivity : ActEvent → Bool
  | .signal _ => true
  | .visible _ => true
  | .hidden _ => false

structure ActState where
  lastActivity : Nat
  /-- fire time of the pending debounce timeout, if one is scheduled -/
  pending : Option Nat
deriving Repr, DecidableEq

/-- A remote write of `sessions/sid/last_activity`: at `time`, writing
`value`; `immediate` distinguishes the visibility-bypass write from the
debounced timer write. -/
structure ActWrite where
  time : Nat
  value : Nat
  immediate : Bool
deriving Repr, DecidableEq

/-- Fire the pending timeout if its fire time has been reached. -/
def flushTimer (upTo : Nat) (s : ActState) : ActState × List ActWrite :=
  match s.pending with
  | some f =>
    if f ≤ upTo then ({ s with pending := none }, [⟨f, s.lastActivity, false⟩])
    else (s, [])
  | none => (s, [])

def actStep (s : ActState) : ActEvent → ActState × List ActWrite
  | .signal t =>
    let (_, ws) := flushTimer t s
    ({ lastActivity := t, pending := some (t + 1000) }, ws)
  | .visible t =>
    let (s1, ws) := flushTimer t s
    ({ s1 with lastActivity := t }, ws ++ [⟨t, t, true⟩])
  | .hidden t => flushTimer t s

def actRunAux (s : ActState) : List ActEvent → ActState × List ActWrite
  | [] => (s, [])
  | e :: es =>
    let (s1, ws) := actStep s e
    let (s2, ws') := actRunAux s1 es
    (s2, ws ++ ws')

/-- Writes produced from state `s` by the events `es`; after the last event a
still-pending timeout eventually fires and is included. -/
def actRunFrom (s : ActState) (es : List ActEvent) : List ActWrite :=
  let (sEnd, ws) := actRunAux s es
  match sEnd.pending with
  | some f => ws ++ [⟨f, sEnd.lastActivity, false⟩]
  | none => ws

/-- Full run from page initialisation at time `t0` (the constructor sets
`lastActivity = Date.now()` and no timeout is pending). -/
def actRun (t0 : Nat) (es : List ActEvent) : List ActWrite :=
  actRunFrom ⟨t0, none⟩ es

/-- Event times strictly increase and all lie after initialisation. -/
def Chronological (t0 : Nat) (es : List ActEvent) : Prop :=
  List.Pairwise (fun a b => evTime a < evTime b) es ∧ ∀ e ∈ es, t0 < evTime e

/-- Invariant of the event-loop run: events are chronological and lie after
`tprev` (the time up to which the run has progressed), the last-activity
value is not in the future, and a pending timeout fires strictly after
`tprev` but no later than one second after the last activity. -/
def ActInv (s : ActState) (tprev : Nat) (es : List ActEvent) : Prop :=
  es.Pairwise (fun a b => evTime a < evTime b) ∧
  (∀ e ∈ es, tprev < evTime e) ∧
  s.lastActivity ≤ tprev ∧
  (∀ f, s.pending = some f → tprev < f ∧ f ≤ s.lastActivity + 1000)

/-- Lower bound on the time of any future debounced write: the pending fire
time if a timeout is scheduled, else strictly more than one second after
`tprev` (a new timeout can only be scheduled by a future signal). -/
def pendLB (s : ActState) (tprev : Nat) : Nat :=
  match s.pending with
  | some f => f
  | none => tprev + 1001

/-! ### Concrete instances used by witnesses and counterexamples -/

/-- A concrete tool definition that is disabled. -/
def disabledTool : ToolData :=
  { name := "Port Scanner", description := "scan", enabled := false,
    type := "hosted", hostedHtml := "<p>ui</p>", hostedCss := "",
    hostedJs := "", showHeader := true }

/-- A concrete enabled hosted tool whose script reads `window.parent`. -/
def snoopTool : ToolData :=
  { name := "Snoop", description := "", enabled := true, type := "hosted",
    hostedHtml := "<div id=\"x\"></div>", hostedCss := "",
    hostedJs := "var p = window.parent;", showHeader := true }

/-- A concrete collection of environment attributes. -/
def sampleAttrs : FingerprintAttrs :=
  { userAgent := "Mozilla/5.0", language := "en-US",
    platform := "Linux x86_64", screen := "1920x1080", colorDepth := 24,
    timezone := "UTC", cookiesEnabled := true, doNotTrack := "1" }

/-- A concrete counter key and an initially empty counter store. -/
def sampleKey : CounterKey := ⟨"tool123", "view"⟩

def emptyCounters : CounterStore := fun _ => none

/-- The tracker state after initialisation at time 0. -/
def st0 : Tracker := (initTracker 0 "sess1" "user1" "/home").1

/-- A concrete chronological trace: two user-input signals 400 ms apart,
then a visibility-to-visible event. -/
def sampleTrace : List ActEvent :=
  [ActEvent.signal 100, ActEvent.signal 500, ActEvent.visible 3000]

/-! ## Theorems -/

/-- C6: the duration-bucket classification maps elapsed seconds `s` by
half-open, lower-inclusive intervals: `s<10→"0-10s"`, `10≤s<30→"10-30s"`,
`30≤s<60→"30-60s"`, `60≤s<300→"1-5m"`, `300≤s<600→"5-10m"`,
`600≤s<1800→"10-30m"`, `1800≤s<3600→"30-60m"`, `s≥3600→"60m+"`; in
particular 5 s maps to "0-10s", 10 s to "10-30s", 45 s to "30-60s" and
7200 s to "60m+" (the function takes milliseconds; the elapsed seconds are
`ms / 1000`). -/
theorem c6_duration_buckets :
    (∀ ms : Nat,
      (ms / 1000 < 10 → getDurationBucket ms = "0-10s") ∧
      (10 ≤ ms / 1000 ∧ ms / 1000 < 30 → getDurationBucket ms = "10-30s") ∧
      (30 ≤ ms / 1000 ∧ ms / 1000 < 60 → getDurationBucket ms = "30-60s") ∧
      (60 ≤ ms / 1000 ∧ ms / 1000 < 300 → getDurationBucket ms = "1-5m") ∧
      (300 ≤ ms / 1000 ∧ ms / 1000 < 600 → getDurationBucket ms = "5-10m") ∧
      (600 ≤ ms / 1000 ∧ ms / 1000 < 1800 → getDurationBucket ms = "10-30m") ∧
      (1800 ≤ ms / 1000 ∧ ms / 1000 < 3600 → getDurationBucket ms = "30-60m") ∧
      (3600 ≤ ms / 1000 → getDurationBucket ms = "60m+")) ∧
    getDurationBucket 5000 = "0-10s" ∧
    getDurationBucket 10000 = "10-30s" ∧
    getDurationBucket 45000 = "30-60s" ∧
    getDurationBucket 7200000 = "60m+" := by
  refine ⟨fun ms => ?_, rfl, rfl, rfl, rfl⟩
  simp only [getDurationBucket]
  split_ifs with h1 h2 h3 h4 h5 h6 h7 <;>
    refine ⟨fun h => ?_, fun h => ?_, fun h => ?_, fun h => ?_, fun h => ?_,
      fun h => ?_, fun h => ?_, fun h => ?_⟩ <;>
    first
      | rfl
      | omega

/-- C6 witness: concrete instantiation of the bucket bounds. -/
theorem c6_duration_buckets_witness :
    9999 / 1000 < 10 ∧ getDurationBucket 9999 = "0-10s" ∧
    1800 ≤ 1800000 / 1000 ∧ 1800000 / 1000 < 3600 ∧
    getDurationBucket 1800000 = "30-60m" :=
  ⟨by norm_num, (c6_duration_buckets.1 9999).1 (by norm_num),
   by norm_num, by norm_num,
   (c6_duration_buckets.1 1800000).2.2.2.2.2.2.1 (by norm_num)⟩

/-- C2 counterexample: resolving a disabled tool fails with the `Disabled`
error, yet the embedded browsing context (the iframe) HAS been constructed:
`init` runs `setupViewer()` — which creates and attaches the iframe — before
`loadTool()` resolves the definition, so the failure does not abort before
the isolation context exists. -/
theorem c2_counterexample :
    resolveTool (some disabledTool) = .error .disabled ∧
    ¬ (viewerInit (some disabledTool)).iframeCreated = false := by
  constructor
  · rfl
  · intro h
    have : (viewerInit (some disabledTool)).iframeCreated = true := rfl
    simp [this] at h

/-- C2 (amended): resolution fails with a distinct error for each of the
four kinds — not found, disabled (`enabled=false`), wrong type
(`type="external"`), missing payload (empty `hostedHtml`) — with pairwise
distinct user-facing messages, and on every failing resolution no tool
document is ever composed into the iframe and the error panel is shown;
however the iframe itself (the embedded browsing context) is created
unconditionally by `init` before resolution, so it already exists when
resolution fails. -/
theorem c2_resolution_errors :
    (resolveTool none = .error .notFound) ∧
    (∀ td : ToolData, td.enabled = false → resolveTool (some td) = .error .disabled) ∧
    (∀ td : ToolData, td.enabled = true → td.type = "external" →
      resolveTool (some td) = .error .typeMismatch) ∧
    (∀ td : ToolData, td.enabled = true → td.type = "hosted" → td.hostedHtml = "" →
      resolveTool (some td) = .error .payloadMissing) ∧
    Function.Injective errorMessage ∧
    (∀ (fetched : Option ToolData) (e : LoadError), resolveTool fetched = .error e →
      (viewerInit fetched).composedDoc = none ∧
      (viewerInit fetched).errorShown = some (errorMessage e) ∧
      (viewerInit fetched).iframeCreated = true) := by
  refine ⟨rfl, ?_, ?_, ?_, ?_, ?_⟩
  · intro td h
    simp [resolveTool, h]
  · intro td h1 h2
    simp [resolveTool, h1, h2]
  · intro td h1 h2 h3
    simp [resolveTool, h1, h2, h3]
  · intro a b h
    cases a <;> cases b <;> first | rfl | (exact absurd h (by decide))
  · intro fetched e h
    simp [viewerInit, h]

/-- C2 witness: the amended theorem applied to the concrete disabled tool. -/
theorem c2_resolution_errors_witness :
    disabledTool.enabled = false ∧
    resolveTool (some disabledTool) = .error .disabled ∧
    (viewerInit (some disabledTool)).composedDoc = none ∧
    (viewerInit (some disabledTool)).errorShown =
      some "This tool is currently disabled" ∧
    (viewerInit (some disabledTool)).iframeCreated = true := by
  have h1 := c2_resolution_errors.2.1 disabledTool rfl
  have h2 := c2_resolution_errors.2.2.2.2.2 (some disabledTool) .disabled h1
  exact ⟨rfl, h1, h2.1, h2.2.1, h2.2.2⟩

theorem unescape_cons_ne (a : Char) (r : List Char) (h : a ≠ '&') :
    unescapeList (a :: r) = a :: unescapeList r := by
  rw [unescapeList.eq_def]
  split
  · simp_all
  · simp_all
  · simp_all
  · simp_all
  · simp_all

theorem unescape_escape (l : List Char) :
    unescapeList (l.flatMap escapeChar) = l := by
  induction l with
  | nil => rfl
  | cons a tl ih =>
    show unescapeList (escapeChar a ++ tl.flatMap escapeChar) = a :: tl
    by_cases h1 : a = '&'
    · subst h1
      show unescapeList ('&' :: 'a' :: 'm' :: 'p' :: ';' :: tl.flatMap escapeChar) = _
      rw [show ∀ r, unescapeList ('&' :: 'a' :: 'm' :: 'p' :: ';' :: r) =
          '&' :: unescapeList r from fun r => rfl, ih]
    · by_cases h2 : a = '<'
      · subst h2
        show unescapeList ('&' :: 'l' :: 't' :: ';' :: tl.flatMap escapeChar) = _
        rw [show ∀ r, unescapeList ('&' :: 'l' :: 't' :: ';' :: r) =
            '<' :: unescapeList r from fun r => rfl, ih]
      · by_cases h3 : a = '>'
        · subst h3
          show unescapeList ('&' :: 'g' :: 't' :: ';' :: tl.flatMap escapeChar) = _
          rw [show ∀ r, unescapeList ('&' :: 'g' :: 't' :: ';' :: r) =
              '>' :: unescapeList r from fun r => rfl, ih]
        · rw [show escapeChar a = [a] by simp [escapeChar, h1, h2, h3],
            List.singleton_append, unescape_cons_ne a _ h1, ih]

theorem escapeHtml_no_delims (s : String) :
    ∀ c ∈ (escapeHtml s).data, c ≠ '<' ∧ c ≠ '>' := by
  intro c hc
  have hm : c ∈ s.data.flatMap escapeChar := hc
  simp only [List.mem_flatMap] at hm
  obtain ⟨a, -, hca⟩ := hm
  simp only [escapeChar] at hca
  split_ifs at hca with h1 h2 h3
  · fin_cases hca <;> exact ⟨by decide, by decide⟩
  · fin_cases hca <;> exact ⟨by decide, by decide⟩
  · fin_cases hca <;> exact ⟨by decide, by decide⟩
  · simp only [List.mem_singleton] at hca
    subst hca
    exact ⟨h2, h3⟩

/-- C5: the tool-authored header text fields (name, description) are
HTML-escaped before interpolation into the composed shell — the escaped text
contains no markup delimiters, so a name containing them cannot open a tag,
and HTML entity decoding renders it back as exactly the original literal
text — whereas the hostedHtml/hostedCss/hostedJs payloads are interpolated
verbatim, without escaping. -/
theorem c5_header_escaping :
    (∀ td : ToolData,
      renderSeg td .escName = escapeHtml td.name ∧
      renderSeg td .escDescription = escapeHtml td.description ∧
      renderSeg td .htmlPayload = td.hostedHtml ∧
      renderSeg td .cssPayload = td.hostedCss ∧
      renderSeg td .jsPayload = td.hostedJs ∧
      Seg.escName ∈ toolHtmlSegments td ∧
      Seg.htmlPayload ∈ toolHtmlSegments td) ∧
    (∀ s : String, ∀ c ∈ (escapeHtml s).data, c ≠ '<' ∧ c ≠ '>') ∧
    (∀ s : String, unescapeHtml (escapeHtml s) = s) := by
  refine ⟨fun td => ⟨rfl, rfl, rfl, rfl, rfl, ?_, ?_⟩, escapeHtml_no_delims, ?_⟩
  · simp [toolHtmlSegments]
  · simp [toolHtmlSegments]
  · intro s
    have h := unescape_escape s.data
    show (⟨unescapeList (s.data.flatMap escapeChar)⟩ : String) = s
    rw [h]

/-- C5 witness: a name made of markup delimiters escapes to text with no
delimiters, decodes back to the original, and the payload passes through
verbatim for a concrete tool. -/
theorem c5_header_escaping_witness :
    '&' ∈ (escapeHtml "<img>").data ∧ ('&' ≠ '<' ∧ '&' ≠ '>') ∧
    unescapeHtml (escapeHtml "<img>") = "<img>" ∧
    renderSeg disabledTool .escName = escapeHtml disabledTool.name ∧
    renderSeg disabledTool .htmlPayload = disabledTool.hostedHtml :=
  ⟨by decide, c5_header_escaping.2.1 "<img>" '&' (by decide),
   c5_header_escaping.2.2 "<img>",
   (c5_header_escaping.1 disabledTool).1,
   (c5_header_escaping.1 disabledTool).2.2.1⟩

/-- The document-order script list of any composed tool document: the
tool-authored script element (when hostedJs is non-empty) comes FIRST, the
host's isolation script comes last. -/
theorem scriptSegs_eq (td : ToolData) :
    scriptSegs td =
      (if td.hostedJs ≠ "" then [Seg.jsPayload] else []) ++ [Seg.isolationScript] := by
  unfold scriptSegs toolHtmlSegments
  by_cases hsh : td.showHeader <;> by_cases hd : td.description = "" <;>
    by_cases hj : td.hostedJs = "" <;>
    simp [hsh, hd, hj, List.filter_append, List.filter, isScriptSeg]

/-- C1 counterexample: the neutralization is NOT in effect before
tool-authored script runs.  For the concrete tool `snoopTool`, the
tool-authored script element is the first script of the composed document
(the host's isolation script comes after it), and in the window state in
force when that first script starts executing, reading the parent frame
reference returns the real host object, not a neutral value. -/
theorem c1_counterexample :
    scriptSegs snoopTool = [Seg.jsPayload, Seg.isolationScript] ∧
    readParent (stateBeforeScript snoopTool 0) = some HostObj.parentFrame ∧
    ¬ readParent (stateBeforeScript snoopTool 0) = none := by
  refine ⟨?_, rfl, by decide⟩
  have h := scriptSegs_eq snoopTool
  simpa using h

/-- C1 (amended): the host's isolation script, once it executes in a frame
with a distinct parent, does neutralize the upward references — `parent`,
`top` and `opener` read as null, `open` returns null, and
alert/confirm/prompt become no-ops that only log locally (no host dialog is
shown; confirm returns false, prompt returns null) — and installs the
unload-confirmation guard.  However the isolation script is the LAST script
element of the composed document, placed after the tool's own script
element, so the neutralization takes effect only after tool-authored
top-level code has already run, not immediately on initialization. -/
theorem c1_neutralization :
    (∀ w : WindowState, w.hasParent = true →
      readParent (runIsolationScript w) = none ∧
      readTop (runIsolationScript w) = none ∧
      readOpener (runIsolationScript w) = none ∧
      (callOpen (runIsolationScript w)).2 = none ∧
      (callAlert (runIsolationScript w)).hostDialogsShown = w.hostDialogsShown ∧
      (callAlert (runIsolationScript w)).log =
        w.log ++ ["[Tool] Alert blocked by sandbox"] ∧
      (∀ ans, (callConfirm (runIsolationScript w) ans).2 = false ∧
        (callConfirm (runIsolationScript w) ans).1.hostDialogsShown =
          w.hostDialogsShown ∧
        (callConfirm (runIsolationScript w) ans).1.log =
          w.log ++ ["[Tool] Confirm blocked by sandbox"]) ∧
      (∀ inp, (callPrompt (runIsolationScript w) inp).2 = none ∧
        (callPrompt (runIsolationScript w) inp).1.hostDialogsShown =
          w.hostDialogsShown ∧
        (callPrompt (runIsolationScript w) inp).1.log =
          w.log ++ ["[Tool] Prompt blocked by sandbox"]) ∧
      (runIsolationScript w).unloadGuard = true) ∧
    (∀ td : ToolData, td.hostedJs ≠ "" →
      scriptSegs td = [Seg.jsPayload, Seg.isolationScript] ∧
      readParent (stateBeforeScript td 0) = some HostObj.parentFrame) ∧
    (∀ td : ToolData, td.hostedJs = "" → scriptSegs td = [Seg.isolationScript]) := by
  refine ⟨fun w hw => ?_, fun td hj => ⟨?_, rfl⟩, fun td hj => ?_⟩
  · simp [runIsolationScript, hw, readParent, readTop, readOpener, callOpen,
      callAlert, callConfirm, callPrompt]
  · rw [scriptSegs_eq]
    simp [hj]
  · rw [scriptSegs_eq]
    simp [hj]

/-- C1 witness: the amended theorem applied to a fresh embedded window and
the concrete tool `snoopTool`. -/
theorem c1_neutralization_witness :
    freshWindow.hasParent = true ∧
    readParent (runIsolationScript freshWindow) = none ∧
    (runIsolationScript freshWindow).unloadGuard = true ∧
    snoopTool.hostedJs ≠ "" ∧
    scriptSegs snoopTool = [Seg.jsPayload, Seg.isolationScript] := by
  have h1 := c1_neutralization.1 freshWindow rfl
  have h2 := c1_neutralization.2.1 snoopTool (by decide)
  exact ⟨rfl, h1.1, h1.2.2.2.2.2.2.2.2, by decide, h2.1⟩

theorem toInt32_bounds (n : Int) : -(2 ^ 31) ≤ toInt32 n ∧ toInt32 n < 2 ^ 31 := by
  have h1 : (0 : Int) ≤ (n + 2 ^ 31) % 2 ^ 32 := Int.emod_nonneg _ (by norm_num)
  have h2 : (n + 2 ^ 31) % 2 ^ 32 < 2 ^ 32 := Int.emod_lt_of_pos _ (by norm_num)
  unfold toInt32
  norm_num at h1 h2 ⊢
  omega

theorem hashFold_bounds (l : List Nat) :
    ∀ h : Int, -(2 ^ 31) ≤ h ∧ h < 2 ^ 31 →
      -(2 ^ 31) ≤ l.foldl hashStep h ∧ l.foldl hashStep h < 2 ^ 31 := by
  induction l with
  | nil => exact fun h hb => hb
  | cons c tl ih =>
    intro h _
    exact ih (hashStep h c) (toInt32_bounds _)

theorem fingerprintHash_bounds (s : String) :
    -(2 ^ 31) ≤ fingerprintHash s ∧ fingerprintHash s < 2 ^ 31 := by
  have h := hashFold_bounds (s.data.map Char.toNat) 0 (by norm_num)
  have he : (s.data.map Char.toNat).foldl hashStep 0 =
      s.data.foldl (fun h c => hashStep h c.toNat) 0 := by
    rw [List.foldl_map]
  rw [he] at h
  exact h

theorem base36Digit_ok (m : Nat) (h : m < 36) :
    ('0' ≤ base36Digit m ∧ base36Digit m ≤ '9') ∨
    ('a' ≤ base36Digit m ∧ base36Digit m ≤ 'z') := by
  interval_cases m <;> decide

theorem natToBase36Aux_digits :
    ∀ (n : Nat) (acc : List Char),
      (∀ c ∈ acc, ('0' ≤ c ∧ c ≤ '9') ∨ ('a' ≤ c ∧ c ≤ 'z')) →
      ∀ c ∈ natToBase36Aux n acc,
        ('0' ≤ c ∧ c ≤ '9') ∨ ('a' ≤ c ∧ c ≤ 'z') := by
  intro n
  induction n using Nat.strong_induction_on with
  | _ n ih =>
    intro acc hacc c hc
    match n with
    | 0 =>
      rw [natToBase36Aux] at hc
      exact hacc c hc
    | Nat.succ m =>
      rw [natToBase36Aux] at hc
      refine ih ((m + 1) / 36) (Nat.div_lt_self (Nat.succ_pos m) (by norm_num))
        _ ?_ c hc
      intro d hd
      rcases List.mem_cons.mp hd with hd | hd
      · subst hd
        exact base36Digit_ok _ (Nat.mod_lt _ (by norm_num))
      · exact hacc d hd

theorem natToBase36_digits (n : Nat) :
    ∀ c ∈ (natToBase36 n).data, ('0' ≤ c ∧ c ≤ '9') ∨ ('a' ≤ c ∧ c ≤ 'z') := by
  intro c hc
  unfold natToBase36 at hc
  split_ifs at hc with h
  · rcases List.mem_singleton.mp hc with rfl
    decide
  · exact natToBase36Aux_digits n [] (by intro d hd; cases hd) c hc

/-- C10: the pseudo-user-id derivation is deterministic — identical values
of the collected environment attributes yield an identical identifier
string — and the result is always the base-36 rendering (digits 0-9, a-z)
of the non-negative integer `Math.abs(hash)`, whose magnitude fits in
32 bits. -/
theorem c10_fingerprint :
    (∀ a b : FingerprintAttrs, a = b →
      getBrowserFingerprint a = getBrowserFingerprint b) ∧
    (∀ a : FingerprintAttrs,
      getBrowserFingerprint a =
        natToBase36 (fingerprintHash (fingerprintString a)).natAbs ∧
      (fingerprintHash (fingerprintString a)).natAbs ≤ 2 ^ 31) ∧
    (∀ n : Nat, ∀ c ∈ (natToBase36 n).data,
      ('0' ≤ c ∧ c ≤ '9') ∨ ('a' ≤ c ∧ c ≤ 'z')) := by
  refine ⟨fun a b h => by rw [h], fun a => ⟨rfl, ?_⟩, natToBase36_digits⟩
  have hb := fingerprintHash_bounds (fingerprintString a)
  norm_num at hb ⊢
  omega

/-- C10 witness: determinism and digit shape at concrete inputs. -/
theorem c10_fingerprint_witness :
    getBrowserFingerprint sampleAttrs = getBrowserFingerprint sampleAttrs ∧
    '0' ∈ (natToBase36 0).data ∧
    (('0' ≤ '0' ∧ '0' ≤ '9') ∨ ('a' ≤ '0' ∧ '0' ≤ 'z')) :=
  ⟨c10_fingerprint.1 sampleAttrs sampleAttrs rfl, by decide,
   c10_fingerprint.2.2 0 '0' (by decide)⟩

theorem applyIncs_key (ops : List IncOp) :
    ∀ (s : CounterStore) (k : CounterKey),
      (countKey k ops = 0 → applyIncs ops s k = s k) ∧
      (1 ≤ countKey k ops →
        applyIncs ops s k = some ((s k).getD 0 + countKey k ops)) := by
  induction ops with
  | nil =>
    intro s k
    exact ⟨fun _ => rfl, fun h => absurd h (by simp [countKey])⟩
  | cons op tl ih =>
    intro s k
    by_cases hk : op.key = k
    · have hc : countKey k (op :: tl) = countKey k tl + 1 := by
        simp [countKey, List.filter_cons, hk]
      have hs : applyInc s op k = some ((s k).getD 0 + 1) := by
        show (if k = op.key then some ((s op.key).getD 0 + 1) else s k) = _
        rw [if_pos hk.symm, hk]
      constructor
      · intro h
        exact absurd (hc ▸ h) (by omega)
      · intro _
        show applyIncs tl (applyInc s op) k = _
        rcases Nat.eq_zero_or_pos (countKey k tl) with h0 | h1
        · rw [(ih (applyInc s op) k).1 h0, hs, hc, h0]
        · rw [(ih (applyInc s op) k).2 h1, hs, hc]
          exact congrArg some (by simp only [Option.getD_some]; omega)
    · have hc : countKey k (op :: tl) = countKey k tl := by
        simp [countKey, List.filter_cons, hk]
      have hs : applyInc s op k = s k := by
        show (if k = op.key then some ((s op.key).getD 0 + 1) else s k) = _
        rw [if_neg (fun h => hk h.symm)]
      constructor
      · intro h
        show applyIncs tl (applyInc s op) k = _
        rw [(ih (applyInc s op) k).1 (by omega), hs]
      · intro h
        show applyIncs tl (applyInc s op) k = _
        rw [(ih (applyInc s op) k).2 (by omega), hs, hc]

theorem countKey_perm {ops ops' : List IncOp} (h : ops.Perm ops') (k : CounterKey) :
    countKey k ops = countKey k ops' :=
  (h.filter _).length_eq

theorem countKey_replicate (N : Nat) (strat : IncStrategy) (k : CounterKey) :
    countKey k (List.replicate N ⟨strat, k⟩) = N := by
  induction N with
  | zero => rfl
  | succ n ih =>
    simp_all [countKey, List.replicate_succ, List.filter_cons]

/-- C9: per-tool-per-action aggregate counters converge to the exact sum:
for any serialisation of N concurrent callers each performing one increment
(transactional or ServerValue.increment, both applied atomically by the
store), the stored value afterwards is the initial value plus exactly N,
and the result is invariant under reordering (interleaving) of the
operations. -/
theorem c9_counter_convergence :
    (∀ (ops : List IncOp) (s : CounterStore) (k : CounterKey),
      1 ≤ countKey k ops →
        applyIncs ops s k = some ((s k).getD 0 + countKey k ops)) ∧
    (∀ (ops ops' : List IncOp) (s : CounterStore) (k : CounterKey),
      ops.Perm ops' → applyIncs ops s k = applyIncs ops' s k) ∧
    (∀ (N : Nat) (strat : IncStrategy) (s : CounterStore) (k : CounterKey),
      1 ≤ N →
        applyIncs (List.replicate N ⟨strat, k⟩) s k =
          some ((s k).getD 0 + N)) := by
  refine ⟨fun ops s k h => (applyIncs_key ops s k).2 h, ?_, ?_⟩
  · intro ops ops' s k hp
    rcases Nat.eq_zero_or_pos (countKey k ops) with h0 | h1
    · rw [(applyIncs_key ops s k).1 h0,
        (applyIncs_key ops' s k).1 (by rw [← countKey_perm hp]; exact h0)]
    · rw [(applyIncs_key ops s k).2 h1,
        (applyIncs_key ops' s k).2 (by rw [← countKey_perm hp]; exact h1),
        countKey_perm hp]
  · intro N strat s k hN
    have h1 : 1 ≤ countKey k (List.replicate N ⟨strat, k⟩) := by
      rw [countKey_replicate]
      exact hN
    rw [(applyIncs_key _ s k).2 h1, countKey_replicate]

/-- C9 witness: three serialized increments on an absent counter yield
exactly 3. -/
theorem c9_counter_convergence_witness :
    (1 ≤ 3 ∧
      applyIncs (List.replicate 3 ⟨IncStrategy.transaction, sampleKey⟩)
        emptyCounters sampleKey = some ((emptyCounters sampleKey).getD 0 + 3)) ∧
    (emptyCounters sampleKey).getD 0 + 3 = 3 :=
  ⟨⟨by norm_num,
    c9_counter_convergence.2.2 3 IncStrategy.transaction emptyCounters sampleKey
      (by norm_num)⟩, rfl⟩

theorem trackerRun_cons (st : Tracker) (op : TrackerOp) (ops : List TrackerOp) :
    trackerRun st (op :: ops) =
      ((trackerRun (trackerStep st op).1 ops).1,
       (trackerStep st op).2 ++ (trackerRun (trackerStep st op).1 ops).2) := rfl

theorem countPV_cons (op : TrackerOp) (tl : List TrackerOp) :
    countPV (op :: tl) = countPV [op] + countPV tl := by
  cases op <;> first
    | (simp [countPV, List.filter_cons, List.filter]; omega)
    | simp [countPV, List.filter_cons, List.filter]

theorem trackerStep_id (st : Tracker) (op : TrackerOp) :
    (trackerStep st op).1.sessionId = st.sessionId ∧
    (trackerStep st op).1.sessionStart = st.sessionStart ∧
    (trackerStep st op).1.userId = st.userId ∧
    (trackerStep st op).1.heartbeatScheduled = st.heartbeatScheduled ∧
    (trackerStep st op).1.pageViews = st.pageViews + countPV [op] := by
  cases op <;> first
    | (simp [trackerStep, trackPageView, trackToolInteraction, endSession,
        heartbeatTick, countPV, List.filter]; split_ifs <;> simp)
    | simp [trackerStep, trackPageView, trackToolInteraction, endSession,
        heartbeatTick, countPV, List.filter]

theorem trackerRun_state (ops : List TrackerOp) :
    ∀ st : Tracker,
      (trackerRun st ops).1.sessionId = st.sessionId ∧
      (trackerRun st ops).1.sessionStart = st.sessionStart ∧
      (trackerRun st ops).1.heartbeatScheduled = st.heartbeatScheduled ∧
      (trackerRun st ops).1.pageViews = st.pageViews + countPV ops := by
  induction ops with
  | nil => intro st; simp [trackerRun, countPV, List.filter]
  | cons op tl ih =>
    intro st
    rw [trackerRun_cons]
    obtain ⟨h1, h2, _, h4, h5⟩ := trackerStep_id st op
    obtain ⟨g1, g2, g3, g4⟩ := ih (trackerStep st op).1
    refine ⟨by rw [g1, h1], by rw [g2, h2], by rw [g3, h4], ?_⟩
    rw [g4, h5, countPV_cons op tl]
    omega

/-- Every status-bearing write emitted after initialisation carries "ended":
no post-init operation ever writes status "active". -/
theorem trackerStep_status (st : Tracker) (op : TrackerOp) :
    ∀ w ∈ (trackerStep st op).2, ∀ s, writeStatus w = some s → s = "ended" := by
  cases op with
  | pageView t path =>
    intro w hw s hs
    simp [trackerStep, trackPageView] at hw
    rcases hw with rfl | rfl | rfl <;> simp [writeStatus] at hs
  | toolInteraction t toolId action =>
    intro w hw s hs
    simp [trackerStep, trackToolInteraction] at hw
    rcases hw with rfl | rfl | rfl <;> simp [writeStatus] at hs
  | endOp t =>
    intro w hw s hs
    simp [trackerStep, endSession] at hw
    rcases hw with rfl | rfl | rfl <;> simp [writeStatus] at hs
    exact hs.symm
  | hbTick t =>
    intro w hw s hs
    simp [trackerStep, heartbeatTick] at hw
    split_ifs at hw with h
    · simp at hw
      subst hw
      simp [writeStatus] at hs
    · simp at hw

theorem trackerRun_status (ops : List TrackerOp) :
    ∀ st : Tracker, ∀ w ∈ (trackerRun st ops).2, ∀ s,
      writeStatus w = some s → s = "ended" := by
  induction ops with
  | nil => intro st w hw; simp [trackerRun] at hw
  | cons op tl ih =>
    intro st w hw s hs
    rw [trackerRun_cons] at hw
    rcases List.mem_append.mp hw with hw | hw
    · exact trackerStep_status st op w hw s hs
    · exact ih (trackerStep st op).1 w hw s hs

/-- C3 counterexample: `endSession` is unguarded.  Calling it a second time
emits the same remote writes again (they are not suppressed), and
`trackPageView` / `trackToolInteraction` called after `endSession` still
perform remote writes — refuting "calling end() a second time is a no-op
(no further remote writes)" and "any Active-only operation after Ended
performs no remote write". -/
theorem c3_counterexample :
    (endSession 5000 st0).1 = st0 ∧
    (endSession 6000 (endSession 5000 st0).1).2 ≠ [] ∧
    (trackPageView 7000 "/p2" (endSession 5000 st0).1).2 ≠ [] ∧
    (trackToolInteraction 8000 "tool1" "click" (endSession 5000 st0).1).2 ≠ [] := by
  refine ⟨rfl, ?_, ?_, ?_⟩ <;> simp [endSession, trackPageView, trackToolInteraction]

/-- C3 (amended): the remotely written status only ever moves
active→ended — initialisation writes status "active", and every
status-bearing write emitted by any later operation carries "ended", so the
status never reverts — and `end()` leaves the in-memory state unchanged;
but the tracker keeps no local lifecycle state and has no guards: a second
`end()` repeats its three remote writes, and recordPageView /
recordToolInteraction after `end()` still perform remote writes. -/
theorem c3_status_lifecycle :
    (∀ (st : Tracker) (ops : List TrackerOp), ∀ w ∈ (trackerRun st ops).2,
      ∀ s, writeStatus w = some s → s = "ended") ∧
    (∀ (t0 : Nat) (sid uid path : String),
      ∀ w ∈ (initTracker t0 sid uid path).2,
        ∀ s, writeStatus w = some s → s = "active") ∧
    (∀ (st : Tracker) (t : Nat),
      (endSession t st).1 = st ∧ (endSession t st).2 ≠ []) ∧
    (∀ (st : Tracker) (t : Nat) (path toolId action : String),
      (trackPageView t path (endSession t st).1).2 ≠ [] ∧
      (trackToolInteraction t toolId action (endSession t st).1).2 ≠ []) := by
  refine ⟨fun st ops w hw s hs => trackerRun_status ops st w hw s hs,
    ?_, fun st t => ⟨rfl, by simp [endSession]⟩,
    fun st t path toolId action =>
      ⟨by simp [trackPageView], by simp [trackToolInteraction]⟩⟩
  intro t0 sid uid path w hw s hs
  simp [initTracker, trackPageView] at hw
  rcases hw with rfl | rfl | rfl | rfl | rfl | rfl <;> simp [writeStatus] at hs
  exact hs.symm

/-- C3 witness: the amended theorem applied to a concrete post-init run. -/
theorem c3_status_lifecycle_witness :
    RemoteWrite.sessionUpdateEnd "sess1" 5000 5000 1 "ended" ∈
      (trackerRun st0 [TrackerOp.endOp 5000]).2 ∧
    writeStatus (RemoteWrite.sessionUpdateEnd "sess1" 5000 5000 1 "ended") =
      some "ended" ∧
    "ended" = "ended" ∧
    (endSession 5000 st0).2 ≠ [] := by
  refine ⟨by decide, rfl, ?_, (c3_status_lifecycle.2.2.1 st0 5000).2⟩
  exact c3_status_lifecycle.1 st0 [TrackerOp.endOp 5000]
    (RemoteWrite.sessionUpdateEnd "sess1" 5000 5000 1 "ended") (by decide)
    "ended" rfl

/-- C4 counterexample: the heartbeat interval is never cleared.  In the run
where the session ends at t=10000 and the interval ticks at t=70000 — two
full intervals after `end()` — a heartbeat write is still emitted. -/
theorem c4_counterexample :
    RemoteWrite.heartbeatSet "sess1" 70000 ∈
      (trackerRun st0 [TrackerOp.endOp 10000, TrackerOp.hbTick 70000]).2 ∧
    10000 + 30000 < 70000 := by
  exact ⟨by decide, by norm_num⟩

/-- C4 (amended): while the heartbeat interval is scheduled a heartbeat
timestamp write is emitted at every 30-second tick; the interval is
scheduled at initialisation, and no operation — `end()` included — ever
clears it, so heartbeat emission does NOT stop when the session ends: ticks
after `end()` still write, and emission stops only when the page itself is
destroyed. -/
theorem c4_heartbeat :
    (∀ (st : Tracker) (t : Nat), st.heartbeatScheduled = true →
      heartbeatTick t st = (st, [RemoteWrite.heartbeatSet st.sessionId t])) ∧
    (∀ (st : Tracker) (t : Nat),
      ((endSession t st).1).heartbeatScheduled = st.heartbeatScheduled) ∧
    (∀ (t0 : Nat) (sid uid path : String),
      ((initTracker t0 sid uid path).1).heartbeatScheduled = true) ∧
    (∀ (st : Tracker) (ops : List TrackerOp),
      ((trackerRun st ops).1).heartbeatScheduled = st.heartbeatScheduled) ∧
    (∀ (st : Tracker) (t t' : Nat), st.heartbeatScheduled = true →
      (heartbeatTick t (endSession t' st).1).2 =
        [RemoteWrite.heartbeatSet st.sessionId t]) := by
  refine ⟨fun st t h => by simp [heartbeatTick, h], fun st t => rfl,
    fun t0 sid uid path => rfl,
    fun st ops => (trackerRun_state ops st).2.2.1,
    fun st t t' h => by simp [endSession, heartbeatTick, h]⟩

/-- C4 witness: a tick after `end()` on the concrete initialised tracker
still emits a heartbeat write. -/
theorem c4_heartbeat_witness :
    st0.heartbeatScheduled = true ∧
    (heartbeatTick 70000 (endSession 10000 st0).1).2 =
      [RemoteWrite.heartbeatSet "sess1" 70000] :=
  ⟨rfl, c4_heartbeat.2.2.2.2 st0 70000 10000 rfl⟩

theorem countPV_take_le (ops : List TrackerOp) (n : Nat) :
    countPV (ops.take n) ≤ countPV ops :=
  List.Sublist.length_le ((List.take_sublist n ops).filter _)

theorem trackerRun_end_write (ops : List TrackerOp) :
    ∀ (st : Tracker) (i t : Nat), ops.get? i = some (TrackerOp.endOp t) →
      RemoteWrite.sessionUpdateEnd st.sessionId t (t - st.sessionStart)
        (st.pageViews + countPV (ops.take i)) "ended" ∈ (trackerRun st ops).2 := by
  induction ops with
  | nil =>
    intro st i t h
    simp at h
  | cons op tl ih =>
    intro st i t h
    rw [trackerRun_cons]
    match i with
    | 0 =>
      injection h with h
      subst h
      apply List.mem_append_left
      simp [trackerStep, endSession, countPV, List.filter]
    | Nat.succ j =>
      apply List.mem_append_right
      have hmem := ih (trackerStep st op).1 j t h
      obtain ⟨h1, h2, _, _, h5⟩ := trackerStep_id st op
      rw [h1, h2, h5] at hmem
      rw [List.take_succ_cons, countPV_cons, ← Nat.add_assoc]
      exact hmem

/-- C8: the page-view counter equals its initial value plus the number of
`trackPageView` calls (so, from a freshly initialised tracker whose init
already recorded the first page view, it is `1 +` the number of later
calls); the counter is monotonically non-decreasing along every run; and
the final session record written by each `end()` carries exactly the count
accumulated before that `end()`. -/
theorem c8_page_view_counter :
    (∀ (st : Tracker) (ops : List TrackerOp),
      (trackerRun st ops).1.pageViews = st.pageViews + countPV ops) ∧
    (∀ (st : Tracker) (ops : List TrackerOp) (n : Nat),
      (trackerRun st (ops.take n)).1.pageViews ≤ (trackerRun st ops).1.pageViews) ∧
    (∀ (t0 : Nat) (sid uid path : String) (ops : List TrackerOp),
      (trackerRun (initTracker t0 sid uid path).1 ops).1.pageViews =
        1 + countPV ops) ∧
    (∀ (st : Tracker) (ops : List TrackerOp) (i t : Nat),
      ops.get? i = some (TrackerOp.endOp t) →
      RemoteWrite.sessionUpdateEnd st.sessionId t (t - st.sessionStart)
        (st.pageViews + countPV (ops.take i)) "ended" ∈ (trackerRun st ops).2) := by
  refine ⟨fun st ops => (trackerRun_state ops st).2.2.2, ?_, ?_,
    fun st ops i t h => trackerRun_end_write ops st i t h⟩
  · intro st ops n
    rw [(trackerRun_state (ops.take n) st).2.2.2, (trackerRun_state ops st).2.2.2]
    have := countPV_take_le ops n
    omega
  · intro t0 sid uid path ops
    rw [(trackerRun_state ops _).2.2.2]
    have h : ((initTracker t0 sid uid path).1).pageViews = 1 := rfl
    omega

/-- C8 witness: a concrete run — one further page view, then `end()` — whose
final record carries page-view count 2. -/
theorem c8_page_view_counter_witness :
    [TrackerOp.pageView 1000 "/a", TrackerOp.endOp 2000].get? 1 =
      some (TrackerOp.endOp 2000) ∧
    RemoteWrite.sessionUpdateEnd "sess1" 2000 2000 2 "ended" ∈
      (trackerRun st0 [TrackerOp.pageView 1000 "/a", TrackerOp.endOp 2000]).2 := by
  refine ⟨rfl, ?_⟩
  have h := c8_page_view_counter.2.2.2 st0
    [TrackerOp.pageView 1000 "/a", TrackerOp.endOp 2000] 1 2000 rfl
  have he : st0.pageViews +
      countPV ([TrackerOp.pageView 1000 "/a", TrackerOp.endOp 2000].take 1) = 2 := by
    decide
  rw [he] at h
  exact h

theorem actRunAux_cons (s : ActState) (e : ActEvent) (es : List ActEvent) :
    actRunAux s (e :: es) =
      ((actRunAux (actStep s e).1 es).1,
       (actStep s e).2 ++ (actRunAux (actStep s e).1 es).2) := rfl

theorem actRunFrom_cons (s : ActState) (e : ActEvent) (es : List ActEvent) :
    actRunFrom s (e :: es) = (actStep s e).2 ++ actRunFrom (actStep s e).1 es := by
  cases hpd : (actRunAux (actStep s e).1 es).1.pending <;>
    simp [actRunFrom, actRunAux_cons, hpd]

/-- Every write emitted while handling one event is either the pending
debounced write (fire time reached, carrying the current last-activity
value) or the immediate visibility-bypass write. -/
theorem actStep_writes (s : ActState) (e : ActEvent) :
    ∀ w ∈ (actStep s e).2,
      (∃ f, s.pending = some f ∧ f ≤ evTime e ∧
        w = ⟨f, s.lastActivity, false⟩) ∨
      (e = ActEvent.visible (evTime e) ∧ w = ⟨evTime e, evTime e, true⟩) := by
  intro w hw
  rcases hp : s.pending with _ | f
  · cases e with
    | signal t => simp [actStep, flushTimer, hp] at hw
    | visible t =>
      simp [actStep, flushTimer, hp] at hw
      subst hw
      exact Or.inr ⟨rfl, rfl⟩
    | hidden t => simp [actStep, flushTimer, hp] at hw
  · cases e with
    | signal t =>
      by_cases hf : f ≤ t
      · simp [actStep, flushTimer, hp, hf] at hw
        subst hw
        exact Or.inl ⟨f, rfl, hf, rfl⟩
      · simp [actStep, flushTimer, hp, hf] at hw
    | visible t =>
      by_cases hf : f ≤ t
      · simp [actStep, flushTimer, hp, hf] at hw
        rcases hw with hw | hw
        · subst hw
          exact Or.inl ⟨f, rfl, hf, rfl⟩
        · subst hw
          exact Or.inr ⟨rfl, rfl⟩
      · simp [actStep, flushTimer, hp, hf] at hw
        subst hw
        exact Or.inr ⟨rfl, rfl⟩
    | hidden t =>
      by_cases hf : f ≤ t
      · simp [actStep, flushTimer, hp, hf] at hw
        subst hw
        exact Or.inl ⟨f, rfl, hf, rfl⟩
      · simp [actStep, flushTimer, hp, hf] at hw

/-- The last-activity value after one event: the event's own time for
activity events (user input, visibility-to-visible), unchanged otherwise. -/
theorem actStep_lastAct (s : ActState) (e : ActEvent) :
    (isActivity e = true → (actStep s e).1.lastActivity = evTime e) ∧
    (isActivity e = false → (actStep s e).1.lastActivity = s.lastActivity) := by
  rcases hp : s.pending with _ | f <;> cases e <;> first
    | (simp [actStep, flushTimer, isActivity, evTime, hp]; split_ifs <;> simp)
    | simp [actStep, flushTimer, isActivity, evTime, hp]

/-- The pending timeout after one event: gone, rescheduled one second after
the event (signal case, which also sets last-activity to the event time), or
untouched with a fire time still in the future. -/
theorem actStep_pending (s : ActState) (e : ActEvent) :
    (actStep s e).1.pending = none ∨
    ((actStep s e).1.pending = some (evTime e + 1000) ∧
      (actStep s e).1.lastActivity = evTime e) ∨
    ((actStep s e).1.pending = s.pending ∧
      ∀ f, s.pending = some f → evTime e < f) := by
  rcases hp : s.pending with _ | f
  · cases e with
    | signal t =>
      exact Or.inr (Or.inl (by simp [actStep, flushTimer, hp, evTime]))
    | visible t =>
      refine Or.inr (Or.inr ⟨?_, fun f h => by cases h⟩)
      simp [actStep, flushTimer, hp]
    | hidden t =>
      refine Or.inr (Or.inr ⟨?_, fun f h => by cases h⟩)
      simp [actStep, flushTimer, hp]
  · cases e with
    | signal t =>
      exact Or.inr (Or.inl (by simp [actStep, flushTimer, hp, evTime]))
    | visible t =>
      by_cases hf : f ≤ t
      · exact Or.inl (by simp [actStep, flushTimer, hp, hf])
      · refine Or.inr (Or.inr ⟨by simp [actStep, flushTimer, hp, hf], ?_⟩)
        intro f' h
        injection h with h
        subst h
        simpa [evTime] using Nat.lt_of_not_le hf
    | hidden t =>
      by_cases hf : f ≤ t
      · exact Or.inl (by simp [actStep, flushTimer, hp, hf])
      · refine Or.inr (Or.inr ⟨by simp [actStep, flushTimer, hp, hf], ?_⟩)
        intro f' h
        injection h with h
        subst h
        simpa [evTime] using Nat.lt_of_not_le hf

theorem actStep_lastAct_mono (s : ActState) (e : ActEvent) :
    s.lastActivity ≤ evTime e →
    s.lastActivity ≤ (actStep s e).1.lastActivity := by
  intro h
  rcases actStep_lastAct s e with ⟨hA, hNA⟩
  cases hact : isActivity e
  · rw [hNA hact]
  · rw [hA hact]
    exact h

theorem ActInv_step (s : ActState) (tprev : Nat) (e : ActEvent)
    (es : List ActEvent) (h : ActInv s tprev (e :: es)) :
    ActInv (actStep s e).1 (evTime e) es := by
  obtain ⟨hpw, hgt, hla, hpend⟩ := h
  have ht : tprev < evTime e := hgt e (List.mem_cons_self e es)
  refine ⟨(List.pairwise_cons.mp hpw).2,
    fun e' he' => (List.pairwise_cons.mp hpw).1 e' he', ?_, ?_⟩
  · rcases actStep_lastAct s e with ⟨hA, hNA⟩
    cases hact : isActivity e
    · rw [hNA hact]
      omega
    · rw [hA hact]
  · intro f' hf'
    rcases actStep_pending s e with h0 | ⟨h0, h1⟩ | ⟨h0, h1⟩
    · rw [h0] at hf'
      cases hf'
    · rw [h0] at hf'
      injection hf' with hf'
      subst hf'
      rw [h1]
      omega
    · rw [h0] at hf'
      have hb := hpend f' hf'
      have hm := actStep_lastAct_mono s e (by omega)
      exact ⟨h1 f' hf', by omega⟩

theorem pendLB_mono (s : ActState) (tprev : Nat) (e : ActEvent)
    (hla : s.lastActivity ≤ tprev)
    (hpend : ∀ f, s.pending = some f → tprev < f ∧ f ≤ s.lastActivity + 1000)
    (ht : tprev < evTime e) :
    pendLB s tprev ≤ pendLB (actStep s e).1 (evTime e) := by
  rcases actStep_pending s e with h0 | ⟨h0, _⟩ | ⟨h0, h1⟩
  · rcases hp : s.pending with _ | f
    · simp [pendLB, hp, h0]
      omega
    · have := hpend f hp
      simp [pendLB, hp, h0]
      omega
  · rcases hp : s.pending with _ | f
    · simp [pendLB, hp, h0]
      omega
    · have := hpend f hp
      simp [pendLB, hp, h0]
      omega
  · rcases hp : s.pending with _ | f
    · rw [hp] at h0
      simp [pendLB, hp, h0]
      omega
    · rw [hp] at h0
      simp [pendLB, hp, h0]

/-- Once a debounced write fires while handling an event, every later
debounced write is at least one second after it. -/
theorem actStep_flush_gap (s : ActState) (e : ActEvent) (w : ActWrite)
    (hw : w ∈ (actStep s e).2) (himm : w.immediate = false) :
    w.time + 1000 ≤ pendLB (actStep s e).1 (evTime e) := by
  rcases actStep_writes s e w hw with ⟨f, hp, hf, rfl⟩ | ⟨_, rfl⟩
  · rcases actStep_pending s e with h0 | ⟨h0, _⟩ | ⟨h0, h1⟩
    · simp [pendLB, h0]
      omega
    · simp [pendLB, h0]
      omega
    · exact absurd (h1 f hp) (by omega)
  · simp at himm

/-- Every debounced write of a run fires no earlier than the pending lower
bound: the scheduled fire time, or one second past the frontier. -/
theorem actRunFrom_lower :
    ∀ (es : List ActEvent) (s : ActState) (tprev : Nat), ActInv s tprev es →
      ∀ w ∈ actRunFrom s es, w.immediate = false → pendLB s tprev ≤ w.time := by
  intro es
  induction es with
  | nil =>
    intro s tprev _ w hw _
    rcases hp : s.pending with _ | f <;>
      simp [actRunFrom, actRunAux, hp] at hw
    subst hw
    simp [pendLB, hp]
  | cons e tl ih =>
    intro s tprev hinv w hw himm
    rw [actRunFrom_cons] at hw
    have hinv' := ActInv_step s tprev e tl hinv
    obtain ⟨hpw, hgt, hla, hpend⟩ := hinv
    have ht : tprev < evTime e := hgt e (List.mem_cons_self e tl)
    rcases List.mem_append.mp hw with hw | hw
    · rcases actStep_writes s e w hw with ⟨f, hp, hf, rfl⟩ | ⟨_, rfl⟩
      · simp [pendLB, hp]
      · simp at himm
    · have h1 := ih (actStep s e).1 (evTime e) hinv' w hw himm
      have h2 := pendLB_mono s tprev e hla hpend ht
      omega

/-- One event emits at most one debounced write (the timer flush); the
visibility-bypass write is immediate. -/
theorem actStep_debounced (s : ActState) (e : ActEvent) :
    ((actStep s e).2.filter (fun w => !w.immediate)) = [] ∨
    ∃ f, s.pending = some f ∧ f ≤ evTime e ∧
      ((actStep s e).2.filter (fun w => !w.immediate)) =
        [⟨f, s.lastActivity, false⟩] := by
  rcases hp : s.pending with _ | f
  · cases e <;> simp [actStep, flushTimer, hp, List.filter]
  · cases e with
    | signal t =>
      by_cases hf : f ≤ t
      · exact Or.inr ⟨f, rfl, hf, by simp [actStep, flushTimer, hp, hf, List.filter]⟩
      · exact Or.inl (by simp [actStep, flushTimer, hp, hf, List.filter])
    | visible t =>
      by_cases hf : f ≤ t
      · exact Or.inr ⟨f, rfl, hf, by simp [actStep, flushTimer, hp, hf, List.filter]⟩
      · exact Or.inl (by simp [actStep, flushTimer, hp, hf, List.filter])
    | hidden t =>
      by_cases hf : f ≤ t
      · exact Or.inr ⟨f, rfl, hf, by simp [actStep, flushTimer, hp, hf, List.filter]⟩
      · exact Or.inl (by simp [actStep, flushTimer, hp, hf, List.filter])

/-- Debounced writes of a run are pairwise at least one second apart. -/
theorem actRunFrom_gap :
    ∀ (es : List ActEvent) (s : ActState) (tprev : Nat), ActInv s tprev es →
      ((actRunFrom s es).filter (fun w => !w.immediate)).Pairwise
        (fun a b => a.time + 1000 ≤ b.time) := by
  intro es
  induction es with
  | nil =>
    intro s tprev _
    rcases hp : s.pending with _ | f <;>
      simp [actRunFrom, actRunAux, hp, List.filter]
  | cons e tl ih =>
    intro s tprev hinv
    have hinv' := ActInv_step s tprev e tl hinv
    rw [actRunFrom_cons, List.filter_append]
    apply List.pairwise_append.mpr
    refine ⟨?_, ih _ _ hinv', ?_⟩
    · rcases actStep_debounced s e with h | ⟨f, _, _, h⟩ <;> simp [h]
    · intro a ha b hb
      have hae : a ∈ (actStep s e).2 ∧ a.immediate = false := by
        have h := List.mem_filter.mp ha
        exact ⟨h.1, by simpa using h.2⟩
      have hbe : b ∈ actRunFrom (actStep s e).1 tl ∧ b.immediate = false := by
        have h := List.mem_filter.mp hb
        exact ⟨h.1, by simpa using h.2⟩
      have h1 := actStep_flush_gap s e a hae.1 hae.2
      have h2 := actRunFrom_lower tl (actStep s e).1 (evTime e) hinv' b hbe.1 hbe.2
      omega

/-- Debounced writes never carry a value older than the current
last-activity timestamp. -/
theorem actRunFrom_valLB :
    ∀ (es : List ActEvent) (s : ActState) (tprev : Nat), ActInv s tprev es →
      ∀ w ∈ actRunFrom s es, w.immediate = false → s.lastActivity ≤ w.value := by
  intro es
  induction es with
  | nil =>
    intro s tprev _ w hw _
    rcases hp : s.pending with _ | f <;>
      simp [actRunFrom, actRunAux, hp] at hw
    subst hw
    exact Nat.le_refl _
  | cons e tl ih =>
    intro s tprev hinv w hw himm
    rw [actRunFrom_cons] at hw
    have hinv' := ActInv_step s tprev e tl hinv
    obtain ⟨hpw, hgt, hla, hpend⟩ := hinv
    have ht : tprev < evTime e := hgt e (List.mem_cons_self e tl)
    rcases List.mem_append.mp hw with hw | hw
    · rcases actStep_writes s e w hw with ⟨f, hp, hf, rfl⟩ | ⟨_, rfl⟩
      · exact Nat.le_refl _
      · simp at himm
    · have h1 := ih (actStep s e).1 (evTime e) hinv' w hw himm
      have h2 := actStep_lastAct_mono s e (by omega)
      omega

/-- The value of every debounced write is the current last-activity value or
the time of some activity event of the trace. -/
theorem actRunFrom_valOk :
    ∀ (es : List ActEvent) (s : ActState) (tprev : Nat), ActInv s tprev es →
      ∀ w ∈ actRunFrom s es, w.immediate = false →
        w.value = s.lastActivity ∨
        ∃ e ∈ es, isActivity e = true ∧ evTime e = w.value := by
  intro es
  induction es with
  | nil =>
    intro s tprev _ w hw _
    rcases hp : s.pending with _ | f <;>
      simp [actRunFrom, actRunAux, hp] at hw
    subst hw
    exact Or.inl rfl
  | cons e tl ih =>
    intro s tprev hinv w hw himm
    rw [actRunFrom_cons] at hw
    have hinv' := ActInv_step s tprev e tl hinv
    rcases List.mem_append.mp hw with hw | hw
    · rcases actStep_writes s e w hw with ⟨f, hp, hf, rfl⟩ | ⟨_, rfl⟩
      · exact Or.inl rfl
      · simp at himm
    · rcases ih (actStep s e).1 (evTime e) hinv' w hw himm with h | ⟨e', he', ha', hv'⟩
      · rcases actStep_lastAct s e with ⟨hA, hNA⟩
        cases hact : isActivity e
        · rw [hNA hact] at h
          exact Or.inl h
        · rw [hA hact] at h
          exact Or.inr ⟨e, List.mem_cons_self e tl, hact, h.symm⟩
      · exact Or.inr ⟨e', List.mem_cons_of_mem e he', ha', hv'⟩

/-- Last-write-wins: no activity event strictly precedes a debounced write
without its time being accounted for in the written value. -/
theorem actRunFrom_lastWins :
    ∀ (es : List ActEvent) (s : ActState) (tprev : Nat), ActInv s tprev es →
      ∀ w ∈ actRunFrom s es, w.immediate = false →
        ∀ e ∈ es, isActivity e = true → evTime e < w.time → evTime e ≤ w.value := by
  intro es
  induction es with
  | nil =>
    intro s tprev _ w _ _ e he
    cases he
  | cons e0 tl ih =>
    intro s tprev hinv w hw himm e he hact hlt
    rw [actRunFrom_cons] at hw
    have hinv' := ActInv_step s tprev e0 tl hinv
    rcases List.mem_append.mp hw with hw | hw
    · rcases actStep_writes s e0 w hw with ⟨f, hp, hf, rfl⟩ | ⟨_, rfl⟩
      · rcases List.mem_cons.mp he with rfl | he
        · simp at hlt
          omega
        · have := (List.pairwise_cons.mp hinv.1).1 e he
          simp at hlt
          omega
      · simp at himm
    · rcases List.mem_cons.mp he with rfl | he
      · have hv := actRunFrom_valLB tl (actStep s e).1 (evTime e) hinv' w hw himm
        rcases actStep_lastAct s e with ⟨hA, _⟩
        rw [hA hact] at hv
        exact hv
      · exact ih _ _ hinv' w hw himm e he hact hlt

/-- Immediate writes come only from visibility-to-visible events and carry
the event's own time as both write time and value. -/
theorem actRunFrom_immOk :
    ∀ (es : List ActEvent) (s : ActState) (tprev : Nat), ActInv s tprev es →
      ∀ w ∈ actRunFrom s es, w.immediate = true →
        ActEvent.visible w.time ∈ es ∧ w.value = w.time := by
  intro es
  induction es with
  | nil =>
    intro s tprev _ w hw himm
    rcases hp : s.pending with _ | f <;>
      simp [actRunFrom, actRunAux, hp] at hw
    subst hw
    simp at himm
  | cons e tl ih =>
    intro s tprev hinv w hw himm
    rw [actRunFrom_cons] at hw
    have hinv' := ActInv_step s tprev e tl hinv
    rcases List.mem_append.mp hw with hw | hw
    · rcases actStep_writes s e w hw with ⟨f, hp, hf, rfl⟩ | ⟨hev, rfl⟩
      · simp at himm
      · exact ⟨by rw [← hev]; exact List.mem_cons_self e tl, rfl⟩
    · have h := ih (actStep s e).1 (evTime e) hinv' w hw himm
      exact ⟨List.mem_cons_of_mem e h.1, h.2⟩

/-- Every visibility-to-visible event produces its immediate write. -/
theorem actRunFrom_visImm :
    ∀ (es : List ActEvent) (s : ActState) (t : Nat),
      ActEvent.visible t ∈ es →
      (⟨t, t, true⟩ : ActWrite) ∈ actRunFrom s es := by
  intro es
  induction es with
  | nil =>
    intro s t h
    cases h
  | cons e tl ih =>
    intro s t h
    rw [actRunFrom_cons]
    rcases List.mem_cons.mp h with rfl | h
    · apply List.mem_append_left
      rcases hp : s.pending with _ | f
      · simp [actStep, flushTimer, hp]
      · by_cases hf : f ≤ t <;> simp [actStep, flushTimer, hp, hf, evTime]
    · exact List.mem_append_right _ (ih (actStep s e).1 t h)

/-- C7: for every chronological trace, the debounced activity writes are
pairwise at least one second apart (so any 1-second window contains at most
one of them); each debounced write carries the last-activity timestamp —
the initial value or the time of some activity event, and never older than
any activity event that precedes the write (last-write-wins); and every
visibility-change to visible produces an immediate write of its own
timestamp that bypasses the debounce, immediate writes arising only that
way. -/
theorem c7_activity_debounce :
    ∀ (t0 : Nat) (es : List ActEvent), Chronological t0 es →
      ((actRun t0 es).filter (fun w => !w.immediate)).Pairwise
        (fun a b => a.time + 1000 ≤ b.time) ∧
      (∀ w ∈ actRun t0 es, w.immediate = false →
        (w.value = t0 ∨ ∃ e ∈ es, isActivity e = true ∧ evTime e = w.value) ∧
        (∀ e ∈ es, isActivity e = true → evTime e < w.time →
          evTime e ≤ w.value)) ∧
      (∀ t, ActEvent.visible t ∈ es → (⟨t, t, true⟩ : ActWrite) ∈ actRun t0 es) ∧
      (∀ w ∈ actRun t0 es, w.immediate = true →
        ActEvent.visible w.time ∈ es ∧ w.value = w.time) := by
  intro t0 es hch
  have hinv : ActInv ⟨t0, none⟩ t0 es :=
    ⟨hch.1, hch.2, Nat.le_refl t0, fun f h => by cases h⟩
  refine ⟨actRunFrom_gap es ⟨t0, none⟩ t0 hinv, fun w hw himm => ⟨?_, ?_⟩,
    fun t ht => actRunFrom_visImm es ⟨t0, none⟩ t ht,
    fun w hw himm => actRunFrom_immOk es ⟨t0, none⟩ t0 hinv w hw himm⟩
  · exact actRunFrom_valOk es ⟨t0, none⟩ t0 hinv w hw himm
  · exact fun e he hact hlt =>
      actRunFrom_lastWins es ⟨t0, none⟩ t0 hinv w hw himm e he hact hlt

/-- C7 witness: the debounce theorem applied to the concrete trace. -/
theorem c7_activity_debounce_witness :
    Chronological 0 sampleTrace ∧
    ((actRun 0 sampleTrace).filter (fun w => !w.immediate)).Pairwise
      (fun a b => a.time + 1000 ≤ b.time) ∧
    (⟨3000, 3000, true⟩ : ActWrite) ∈ actRun 0 sampleTrace := by
  have hch : Chronological 0 sampleTrace := by
    constructor
    · decide
    · decide
  have h := c7_activity_debounce 0 sampleTrace hch
  exact ⟨hch, h.1, h.2.2.1 3000 (by decide)⟩

end DTZ
